import Mathlib

/-!
Shallow embedding of the calculator in src/script.js: the CalculatorState
module, the Number Formatter branch logic, the Calculation Engine
(compute / calculate) and the Input Handler entry points (appendNumber,
setOperation, clear, backspace).  Numbers are modelled as exact rationals,
operand strings as Lean strings.
-/

namespace Calculator

/-- The four fields of the CalculatorState module (script.js lines 16-40).
`shouldResetScreen` is the spec's `pendingReset`. -/
structure CalcState where
  currentOperand : String
  previousOperand : String
  operation : Option String
  shouldResetScreen : Bool
deriving DecidableEq

/-- The initial values of the state fields (script.js lines 17-20), also the
result of CalculatorState.reset (lines 33-38). -/
def initState : CalcState :=
  { currentOperand := "0", previousOperand := "", operation := none,
    shouldResetScreen := false }

/-- Character for a decimal digit value (used to model the digits JavaScript
number-to-string conversion emits). -/
def digitChar (d : Nat) : Char :=
  if d = 0 then '0' else if d = 1 then '1' else if d = 2 then '2'
  else if d = 3 then '3' else if d = 4 then '4' else if d = 5 then '5'
  else if d = 6 then '6' else if d = 7 then '7' else if d = 8 then '8'
  else if d = 9 then '9' else '0'

/-- Digits of a natural number, most significant first; fuel-indexed. -/
def natStrAux : Nat → Nat → List Char
  | 0, _ => []
  | fuel + 1, n =>
    if n < 10 then [digitChar n]
    else natStrAux fuel (n / 10) ++ [digitChar (n % 10)]

/-- Decimal string of a natural number. -/
def natStr (n : Nat) : String :=
  String.mk (natStrAux (n + 1) n)

/-- Decimal digits of the fractional part 0 ≤ q < 1, truncated at `fuel`
digits (models the finitely many digits JavaScript Number#toString emits). -/
def fracDigits : Nat → ℚ → List Char
  | 0, _ => []
  | fuel + 1, q =>
    if q = 0 then []
    else
      let d : Nat := (q * 10).floor.toNat
      digitChar d :: fracDigits fuel (q * 10 - d)

/-- Model of JavaScript Number#toString for the finite values the engine
produces: optional minus sign, integer part, and a fractional part after a
single dot when nonzero (script.js line 155 `result.toString()`). -/
def numToString (q : ℚ) : String :=
  let sign : String := if q < 0 then "-" else ""
  let a : ℚ := |q|
  let ip : Nat := a.floor.toNat
  let frac : List Char := fracDigits 20 (a - ip)
  if frac.isEmpty then sign ++ natStr ip
  else sign ++ natStr ip ++ "." ++ String.mk frac

/-- Longest leading run of decimal digits of a character list, with the rest. -/
def takeDigits : List Char → List Char × List Char
  | [] => ([], [])
  | c :: cs =>
    if c.isDigit then
      let r := takeDigits cs
      (c :: r.1, r.2)
    else ([], c :: cs)

/-- Natural-number value of a list of decimal digit characters. -/
def digitsToNat (ds : List Char) : Nat :=
  ds.foldl (fun acc c => acc * 10 + (c.toNat - 48)) 0

/-- Model of JavaScript parseFloat on the decimal fragment the calculator
uses: optional sign, integer digits, optional dot and fraction digits,
trailing garbage ignored; `none` models NaN (no digit found). -/
def parseFloat (s : String) : Option ℚ :=
  let cs := s.data
  let signed : Bool × List Char :=
    match cs with
    | '-' :: rest => (true, rest)
    | '+' :: rest => (false, rest)
    | _ => (false, cs)
  let ipr := takeDigits signed.2
  let fp : List Char :=
    match ipr.2 with
    | '.' :: rest => (takeDigits rest).1
    | _ => []
  if ipr.1.isEmpty ∧ fp.isEmpty then none
  else
    let mag : ℚ := (digitsToNat ipr.1 : ℚ) + (digitsToNat fp : ℚ) / (10 ^ fp.length)
    some (if signed.1 then -mag else mag)

/-- Which rendering branch the Number Formatter takes (script.js lines
54-71): empty passthrough, NaN fallback, exponential notation, or grouped
fixed decimal. -/
inductive FormatKind where
  | empty
  | invalid
  | exponential
  | grouped
deriving DecidableEq

/-- Branch selection of formatNumber (script.js lines 54-71): empty input
passes through, NaN renders "0", magnitudes above 999999999999 or nonzero
below 0.000001 use toExponential(6), anything else uses grouped decimal. -/
def formatNumber (number : String) : FormatKind :=
  if number = "" then FormatKind.empty
  else
    match parseFloat number with
    | none => FormatKind.invalid
    | some x =>
      if 999999999999 < |x| ∨ (|x| < 1 / 1000000 ∧ x ≠ 0) then
        FormatKind.exponential
      else FormatKind.grouped

/-- Result of the Calculation Engine compute (script.js lines 108-139):
the numeric value returned, and whether the divide-by-zero alert fired. -/
structure ComputeOut where
  value : ℚ
  divByZero : Bool
deriving DecidableEq

/-- compute (script.js lines 108-139): parse both operands, return 0 if
either is NaN, otherwise dispatch on the operator symbol; division by a
zero current operand alerts and returns 0; unknown operators return the
current operand. -/
def compute (prev current operator : String) : ComputeOut :=
  match parseFloat prev, parseFloat current with
  | some prevNum, some currentNum =>
    if operator = "+" then { value := prevNum + currentNum, divByZero := false }
    else if operator = "−" then { value := prevNum - currentNum, divByZero := false }
    else if operator = "×" then { value := prevNum * currentNum, divByZero := false }
    else if operator = "÷" then
      if currentNum = 0 then { value := 0, divByZero := true }
      else { value := prevNum / currentNum, divByZero := false }
    else { value := currentNum, divByZero := false }
  | _, _ => { value := 0, divByZero := false }

/-- calculate (script.js lines 144-159): no-op without both a previous
operand and an operation; otherwise commit the computed result as the new
current operand, clear the pending operation and set shouldResetScreen. -/
def calculate (s : CalcState) : CalcState :=
  match s.operation with
  | none => s
  | some op =>
    if s.previousOperand = "" then s
    else
      { currentOperand := numToString (compute s.previousOperand s.currentOperand op).value,
        previousOperand := "", operation := none, shouldResetScreen := true }

/-- Whether a string contains a decimal point, modelling
`current.includes('.')` (script.js line 184). -/
def includesDot (s : String) : Bool :=
  s.data.any (fun c => c = '.')

/-- appendNumber (script.js lines 174-194): reset the screen if pending,
reject a second dot, replace a bare "0" by a non-dot token, else append. -/
def appendNumber (number : String) (s : CalcState) : CalcState :=
  let s1 :=
    if s.shouldResetScreen then
      { s with currentOperand := "0", shouldResetScreen := false }
    else s
  let current := s1.currentOperand
  if number = "." ∧ includesDot current then s1
  else if current = "0" ∧ number ≠ "." then { s1 with currentOperand := number }
  else { s1 with currentOperand := current ++ number }

/-- setOperation (script.js lines 200-219): no-op on an empty current
operand; fold the pending operation first when a second operand has been
typed; then install the operator, move the current operand up and set
shouldResetScreen. -/
def setOperation (operator : String) (s : CalcState) : CalcState :=
  if s.currentOperand = "" then s
  else
    let s1 :=
      if s.previousOperand ≠ "" ∧ s.operation ≠ none ∧ s.shouldResetScreen = false then
        calculate s
      else s
    { s1 with operation := some operator, previousOperand := s1.currentOperand,
              shouldResetScreen := true }

/-- clear (script.js lines 224-227): CalculatorState.reset. -/
def clear (_s : CalcState) : CalcState := initState

/-- backspace (script.js lines 232-249): clears everything when
shouldResetScreen is set, otherwise drops the last character of the
current operand, restoring "0" when one character is left. -/
def backspace (s : CalcState) : CalcState :=
  if s.shouldResetScreen then clear s
  else if 1 < s.currentOperand.data.length then
    { s with currentOperand := String.mk s.currentOperand.data.dropLast }
  else { s with currentOperand := "0" }

/-- The tokens the digit buttons feed into appendNumber: the ten digits
and the decimal point. -/
def validToken (t : String) : Prop :=
  t ∈ (["0", "1", "2", "3", "4", "5", "6", "7", "8", "9", "."] : List String)

instance (t : String) : Decidable (validToken t) := by
  unfold validToken
  infer_instance

/-- States reachable from the initial state through the five entry points
(observed between calls). -/
inductive Reachable : CalcState → Prop where
  | init : Reachable initState
  | step_append (t : String) (ht : validToken t) {s : CalcState} :
      Reachable s → Reachable (appendNumber t s)
  | step_setOp (op : String) {s : CalcState} :
      Reachable s → Reachable (setOperation op s)
  | step_calculate {s : CalcState} : Reachable s → Reachable (calculate s)
  | step_clear {s : CalcState} : Reachable s → Reachable (clear s)
  | step_backspace {s : CalcState} : Reachable s → Reachable (backspace s)

/-- Number of decimal points in a string. -/
def dotCount (s : String) : Nat :=
  s.data.countP (fun c => c = '.')

/-- The invariant the claims about reachable states use: the current
operand is a nonempty string with at most one decimal point, and an
operation is pending exactly when a previous operand is stored. -/
@[reducible] def Inv (s : CalcState) : Prop :=
  s.currentOperand ≠ "" ∧ dotCount s.currentOperand ≤ 1 ∧
    (s.operation ≠ none ↔ s.previousOperand ≠ "")

/-- Repeated digit entry: fold the appendNumber entry point over a list of
tokens, starting from a given state. -/
def runAppends : List String → CalcState → CalcState
  | [], s => s
  | t :: ts, s => runAppends ts (appendNumber t s)

/-- Spec wording of one appendDigit step for C8: the token replaces a bare
"0" unless it is the decimal point, otherwise it is appended. -/
def specStep (acc t : String) : String :=
  if acc = "0" ∧ t ≠ "." then t else acc ++ t

/-- Fold of specStep over a token list. -/
def specFold : List String → String → String
  | [], acc => acc
  | t :: ts, acc => specFold ts (specStep acc t)

/-- The concatenation of a token sequence subject to the
leading-zero-replacement rule, starting from the default operand "0". -/
def specConcat (ts : List String) : String :=
  specFold ts "0"

/-- Total number of decimal points among a token sequence. -/
def countDots (ts : List String) : Nat :=
  (ts.map dotCount).sum

/-- The threshold rule exactly as the spec words it for claim C2: exponential
notation exactly when the absolute value exceeds 1e12, or the value is
nonzero with magnitude below 1e-6. -/
def specExponentialThreshold (x : ℚ) : Prop :=
  10 ^ 12 < |x| ∨ (x ≠ 0 ∧ |x| < 1 / 10 ^ 6)

instance (x : ℚ) : Decidable (specExponentialThreshold x) := by
  unfold specExponentialThreshold
  infer_instance

/-- The state a divide-by-zero calculate() is invoked from in the C1
analysis: a pending 5 ÷ operation with current operand 0. -/
def divByZeroInput : CalcState :=
  { currentOperand := "0", previousOperand := "5", operation := some "÷",
    shouldResetScreen := false }

attribute [local semireducible] Rat.add Rat.sub Rat.mul Rat.inv

theorem digitChar_ne_dot (d : Nat) : digitChar d ≠ '.' := by
  unfold digitChar
  split_ifs <;> decide

theorem natStrAux_ne_nil (fuel n : Nat) (h : fuel ≠ 0) : natStrAux fuel n ≠ [] := by
  cases fuel with
  | zero => exact absurd rfl h
  | succ m =>
    unfold natStrAux
    split <;> simp

theorem dot_not_mem_natStrAux (fuel n : Nat) : '.' ∉ natStrAux fuel n := by
  induction fuel generalizing n with
  | zero => simp [natStrAux]
  | succ m ih =>
    unfold natStrAux
    split
    · simp [Ne.symm (digitChar_ne_dot n)]
    · simp [ih, Ne.symm (digitChar_ne_dot (n % 10))]

theorem dot_not_mem_fracDigits (fuel : Nat) (q : ℚ) : '.' ∉ fracDigits fuel q := by
  induction fuel generalizing q with
  | zero => simp [fracDigits]
  | succ m ih =>
    unfold fracDigits
    split
    · simp
    · simp [ih, Ne.symm (digitChar_ne_dot _)]

theorem dotCount_append (a b : String) : dotCount (a ++ b) = dotCount a + dotCount b := by
  simp [dotCount, String.data_append, List.countP_append]

theorem dotCount_eq_zero_of_not_mem {s : String} (h : '.' ∉ s.data) : dotCount s = 0 := by
  simp only [dotCount, List.countP_eq_zero]
  intro c hc
  simp only [decide_eq_true_eq]
  intro e
  exact h (e ▸ hc)

theorem data_ne_nil_ne_empty {s : String} (h : s.data ≠ []) : s ≠ "" := by
  intro e
  rw [e] at h
  exact h rfl

theorem natStr_ne_empty (n : Nat) : natStr n ≠ "" := by
  apply data_ne_nil_ne_empty
  show natStrAux (n + 1) n ≠ []
  exact natStrAux_ne_nil _ _ (Nat.succ_ne_zero n)

theorem dotCount_natStr (n : Nat) : dotCount (natStr n) = 0 :=
  dotCount_eq_zero_of_not_mem (dot_not_mem_natStrAux (n + 1) n)

theorem data_eq_nil_iff (s : String) : s.data = [] ↔ s = "" := by
  rw [String.ext_iff]

theorem append_ne_empty_right (a b : String) (h : b ≠ "") : a ++ b ≠ "" := by
  rw [Ne, ← data_eq_nil_iff, String.data_append, List.append_eq_nil]
  rintro ⟨-, h2⟩
  exact h ((data_eq_nil_iff b).mp h2)

theorem append_ne_empty_left (a b : String) (h : a ≠ "") : a ++ b ≠ "" := by
  rw [Ne, ← data_eq_nil_iff, String.data_append, List.append_eq_nil]
  rintro ⟨h1, -⟩
  exact h ((data_eq_nil_iff a).mp h1)

theorem numToString_ne_empty (q : ℚ) : numToString q ≠ "" := by
  unfold numToString
  dsimp only
  split
  · exact append_ne_empty_right _ _ (natStr_ne_empty _)
  · exact append_ne_empty_left _ _ (append_ne_empty_right _ _ (by decide))

theorem dotCount_numToString (q : ℚ) : dotCount (numToString q) ≤ 1 := by
  have hsign : dotCount (if q < 0 then "-" else "") = 0 := by
    split <;> rfl
  unfold numToString
  dsimp only
  split
  · rw [dotCount_append, dotCount_natStr, hsign]
    omega
  · rw [dotCount_append, dotCount_append, dotCount_append, dotCount_natStr, hsign]
    have h2 : dotCount (String.mk (fracDigits 20 (|q| - ((|q|).floor.toNat : ℚ)))) = 0 :=
      dotCount_eq_zero_of_not_mem (dot_not_mem_fracDigits _ _)
    rw [h2]
    decide

theorem dotCount_eq_zero_of_includesDot_false {s : String} (h : includesDot s = false) :
    dotCount s = 0 := by
  apply dotCount_eq_zero_of_not_mem
  intro hmem
  have ha : s.data.any (fun c => c = '.') = true :=
    List.any_eq_true.mpr ⟨'.', hmem, by simp⟩
  rw [includesDot] at h
  rw [ha] at h
  exact Bool.noConfusion h

theorem includesDot_of_dot_mem {s : String} (h : '.' ∈ s.data) : includesDot s = true := by
  rw [includesDot]
  exact List.any_eq_true.mpr ⟨'.', h, by simp⟩

theorem inv_initState : Inv initState := by
  unfold Inv
  refine ⟨by decide, by decide, by simp [initState]⟩

theorem inv_clear (s : CalcState) : Inv (clear s) := inv_initState

theorem inv_calculate {s : CalcState} (h : Inv s) : Inv (calculate s) := by
  cases hop : s.operation with
  | none =>
    have : calculate s = s := by
      unfold calculate
      rw [hop]
    rw [this]
    exact h
  | some op =>
    by_cases hp : s.previousOperand = ""
    · have : calculate s = s := by
        unfold calculate
        rw [hop]
        simp [hp]
      rw [this]
      exact h
    · have : calculate s =
        { currentOperand := numToString (compute s.previousOperand s.currentOperand op).value,
          previousOperand := "", operation := none, shouldResetScreen := true } := by
        unfold calculate
        rw [hop]
        simp [hp]
      rw [this]
      exact ⟨numToString_ne_empty _, dotCount_numToString _, by simp⟩

theorem inv_backspace {s : CalcState} (h : Inv s) : Inv (backspace s) := by
  obtain ⟨h1, h2, h3⟩ := h
  by_cases hr : s.shouldResetScreen = true
  · unfold backspace
    rw [if_pos hr]
    exact inv_clear s
  · by_cases hl : 1 < s.currentOperand.data.length
    · unfold backspace
      rw [if_neg hr, if_pos hl]
      refine ⟨?_, ?_, h3⟩
      · apply data_ne_nil_ne_empty
        show s.currentOperand.data.dropLast ≠ []
        intro he
        have h0 : s.currentOperand.data.dropLast.length = 0 := by rw [he]; rfl
        rw [List.length_dropLast] at h0
        omega
      · show (s.currentOperand.data.dropLast).countP (fun c => c = '.') ≤ 1
        exact le_trans (List.Sublist.countP_le _ (List.dropLast_sublist _)) h2
    · unfold backspace
      rw [if_neg hr, if_neg hl]
      refine ⟨?_, ?_, h3⟩
      · show ("0" : String) ≠ ""
        decide
      · show dotCount "0" ≤ 1
        decide

theorem appendNumber_eq_of_noReset (t : String) {s : CalcState}
    (hr : s.shouldResetScreen = false) :
    appendNumber t s =
      if t = "." ∧ includesDot s.currentOperand then s
      else if s.currentOperand = "0" ∧ t ≠ "." then { s with currentOperand := t }
      else { s with currentOperand := s.currentOperand ++ t } := by
  unfold appendNumber
  simp only [hr, Bool.false_eq_true, if_false]

theorem appendNumber_eq_of_reset (t : String) {s : CalcState}
    (hr : s.shouldResetScreen = true) :
    appendNumber t s =
      appendNumber t { s with currentOperand := "0", shouldResetScreen := false } := by
  unfold appendNumber
  simp only [hr, if_true, Bool.false_eq_true, if_false]

theorem validToken_cases {t : String} (ht : validToken t) :
    t = "." ∨ (t ≠ "" ∧ dotCount t = 0) := by
  unfold validToken at ht
  fin_cases ht <;> decide

theorem inv_appendNumber_noReset (t : String) (ht : validToken t) {s : CalcState}
    (hr : s.shouldResetScreen = false) (h : Inv s) : Inv (appendNumber t s) := by
  obtain ⟨h1, h2, h3⟩ := h
  rw [appendNumber_eq_of_noReset t hr]
  rcases validToken_cases ht with rfl | ⟨hne, hdots⟩
  · by_cases hd : includesDot s.currentOperand = true
    · rw [if_pos ⟨rfl, hd⟩]
      exact ⟨h1, h2, h3⟩
    · rw [if_neg (by simp [hd]), if_neg (by simp)]
      refine ⟨append_ne_empty_left _ _ h1, ?_, h3⟩
      show dotCount (s.currentOperand ++ ".") ≤ 1
      rw [dotCount_append, dotCount_eq_zero_of_includesDot_false (Bool.eq_false_iff.mpr hd)]
      decide
  · by_cases hzero : s.currentOperand = "0"
    · by_cases hdot : t = "."
      · exact absurd (hdot ▸ hdots) (by decide)
      · rw [if_neg (by simp [hdot]), if_pos ⟨hzero, hdot⟩]
        refine ⟨hne, ?_, h3⟩
        show dotCount t ≤ 1
        omega
    · by_cases hdot : t = "."
      · exact absurd (hdot ▸ hdots) (by decide)
      · rw [if_neg (by simp [hdot]), if_neg (by simp [hzero])]
        refine ⟨append_ne_empty_left _ _ h1, ?_, h3⟩
        show dotCount (s.currentOperand ++ t) ≤ 1
        rw [dotCount_append, hdots]
        omega

theorem inv_appendNumber (t : String) (ht : validToken t) {s : CalcState} (h : Inv s) :
    Inv (appendNumber t s) := by
  by_cases hr : s.shouldResetScreen = true
  · rw [appendNumber_eq_of_reset t hr]
    refine inv_appendNumber_noReset t ht rfl ⟨?_, ?_, h.2.2⟩
    · show ("0" : String) ≠ ""
      decide
    · show dotCount "0" ≤ 1
      decide
  · exact inv_appendNumber_noReset t ht (Bool.eq_false_iff.mpr hr) h

theorem inv_setOperation (op : String) {s : CalcState} (h : Inv s) :
    Inv (setOperation op s) := by
  by_cases hc : s.currentOperand = ""
  · unfold setOperation
    rw [if_pos hc]
    exact h
  · unfold setOperation
    rw [if_neg hc]
    have hinv1 :
        Inv (if s.previousOperand ≠ "" ∧ s.operation ≠ none ∧ s.shouldResetScreen = false
             then calculate s else s) := by
      split
      · exact inv_calculate h
      · exact h
    obtain ⟨g1, g2, g3⟩ := hinv1
    exact ⟨g1, g2, iff_of_true (by simp) g1⟩

theorem inv_of_reachable {s : CalcState} (h : Reachable s) : Inv s := by
  induction h with
  | init => exact inv_initState
  | step_append t ht _ ih => exact inv_appendNumber t ht ih
  | step_setOp op _ ih => exact inv_setOperation op ih
  | step_calculate _ ih => exact inv_calculate ih
  | step_clear _ _ => exact inv_clear _
  | step_backspace _ ih => exact inv_backspace ih

theorem one_le_dotCount_of_includesDot {s : String} (h : includesDot s = true) :
    1 ≤ dotCount s := by
  rw [includesDot, List.any_eq_true] at h
  obtain ⟨c, hc, he⟩ := h
  simp only [decide_eq_true_eq] at he
  subst he
  rw [dotCount]
  exact Nat.succ_le_of_lt (List.countP_pos_iff.mpr ⟨'.', hc, by simp⟩)

theorem shouldResetScreen_appendNumber_of_false (t : String) {s : CalcState}
    (hr : s.shouldResetScreen = false) : (appendNumber t s).shouldResetScreen = false := by
  rw [appendNumber_eq_of_noReset t hr]
  split
  · exact hr
  · split <;> exact hr

theorem shouldResetScreen_appendNumber (t : String) (s : CalcState) :
    (appendNumber t s).shouldResetScreen = false := by
  by_cases h : s.shouldResetScreen = true
  · rw [appendNumber_eq_of_reset t h]
    exact shouldResetScreen_appendNumber_of_false t rfl
  · exact shouldResetScreen_appendNumber_of_false t (Bool.eq_false_iff.mpr h)

theorem includesDot_appendNumber_dot_of_false {s : CalcState}
    (hr : s.shouldResetScreen = false) :
    includesDot (appendNumber "." s).currentOperand = true := by
  rw [appendNumber_eq_of_noReset "." hr]
  by_cases h1 : includesDot s.currentOperand = true
  · rw [if_pos ⟨rfl, h1⟩]
    exact h1
  · rw [if_neg (by simp [h1]), if_neg (by simp)]
    show includesDot (s.currentOperand ++ ".") = true
    apply includesDot_of_dot_mem
    rw [String.data_append]
    simp

theorem includesDot_appendNumber_dot (s : CalcState) :
    includesDot (appendNumber "." s).currentOperand = true := by
  by_cases h : s.shouldResetScreen = true
  · rw [appendNumber_eq_of_reset "." h]
    exact includesDot_appendNumber_dot_of_false rfl
  · exact includesDot_appendNumber_dot_of_false (Bool.eq_false_iff.mpr h)

theorem appendNumber_dot_dot (s : CalcState) :
    appendNumber "." (appendNumber "." s) = appendNumber "." s := by
  rw [appendNumber_eq_of_noReset "." (shouldResetScreen_appendNumber "." s)]
  rw [if_pos ⟨rfl, includesDot_appendNumber_dot s⟩]

theorem runAppends_spec (ts : List String) (s : CalcState)
    (hv : ∀ t ∈ ts, validToken t) (hr : s.shouldResetScreen = false)
    (hd : dotCount s.currentOperand + countDots ts ≤ 1) :
    (runAppends ts s).currentOperand = specFold ts s.currentOperand := by
  induction ts generalizing s with
  | nil => rfl
  | cons t ts ih =>
    have hvt : validToken t := hv t (List.mem_cons_self t ts)
    have hvr : ∀ u ∈ ts, validToken u := fun u hu => hv u (List.mem_cons_of_mem t hu)
    have hcd : countDots (t :: ts) = dotCount t + countDots ts := by
      simp [countDots]
    rw [hcd] at hd
    show (runAppends ts (appendNumber t s)).currentOperand = specFold ts (specStep s.currentOperand t)
    by_cases h1 : t = "." ∧ includesDot s.currentOperand = true
    · exfalso
      have hds : 1 ≤ dotCount s.currentOperand := one_le_dotCount_of_includesDot h1.2
      have hdt : dotCount t = 1 := by rw [h1.1]; decide
      omega
    · by_cases h2 : s.currentOperand = "0" ∧ t ≠ "."
      · have ha : appendNumber t s = { s with currentOperand := t } := by
          rw [appendNumber_eq_of_noReset t hr, if_neg h1, if_pos h2]
        have hb : specStep s.currentOperand t = t := by
          rw [specStep, if_pos h2]
        rw [ha, hb]
        refine ih { s with currentOperand := t } hvr hr ?_
        show dotCount t + countDots ts ≤ 1
        have : dotCount s.currentOperand = 0 := by rw [h2.1]; decide
        omega
      · have ha : appendNumber t s = { s with currentOperand := s.currentOperand ++ t } := by
          rw [appendNumber_eq_of_noReset t hr, if_neg h1, if_neg h2]
        have hb : specStep s.currentOperand t = s.currentOperand ++ t := by
          rw [specStep, if_neg h2]
        rw [ha, hb]
        refine ih { s with currentOperand := s.currentOperand ++ t } hvr hr ?_
        show dotCount (s.currentOperand ++ t) + countDots ts ≤ 1
        rw [dotCount_append]
        omega

/-- C1: the claim says a divide-by-zero calculate() leaves the state exactly
as before the call, with the attempted 0 not committed.  The code signals
the alert but then commits the 0 result: at state (currentOperand "0",
previousOperand "5", operation ÷, pendingReset false) calculate clears the
previous operand and operation and sets pendingReset, so the state does
change. -/
theorem divide_by_zero_commits_state :
    (compute "5" "0" "÷").divByZero = true ∧
    calculate divByZeroInput =
      { currentOperand := "0", previousOperand := "", operation := none,
        shouldResetScreen := true } ∧
    calculate divByZeroInput ≠ divByZeroInput := by
  refine ⟨by decide, by decide, by decide⟩

/-- C2 counterexample: at input "1000000000000" (value exactly 1e12) the
formatter picks exponential notation although the value does not exceed
1e12, so the claim's "exceeds 1e12" threshold is not the code's rule. -/
theorem formatNumber_threshold_counterexample :
    parseFloat "1000000000000" = some 1000000000000 ∧
    formatNumber "1000000000000" = FormatKind.exponential ∧
    ¬ specExponentialThreshold 1000000000000 := by
  refine ⟨by decide, by decide, by decide⟩

/-- C2 amended: for every input string parsing to a value x, the formatter
renders in exponential notation exactly when the absolute value exceeds
999999999999 (that is 1e12 - 1), or x is nonzero with magnitude below
1e-6; all other parsed values render in grouped decimal form. -/
theorem formatNumber_exponential_iff (s : String) (x : ℚ)
    (h : parseFloat s = some x) :
    formatNumber s = FormatKind.exponential ↔
      999999999999 < |x| ∨ (x ≠ 0 ∧ |x| < 1 / 1000000) := by
  have hs : s ≠ "" := by
    intro e
    rw [e, show parseFloat "" = none from rfl] at h
    exact Option.noConfusion h
  unfold formatNumber
  rw [if_neg hs, h]
  dsimp only
  split
  · rename_i hcond
    exact iff_of_true rfl (by tauto)
  · rename_i hcond
    exact iff_of_false (by decide) (by tauto)

/-- C2 witness: input "0.0000001" parses to 1e-7 and renders in exponential
notation, matching the amended threshold rule. -/
theorem formatNumber_exponential_iff_witness :
    parseFloat "0.0000001" = some (1 / 10000000) ∧
    (formatNumber "0.0000001" = FormatKind.exponential ↔
      999999999999 < |(1 / 10000000 : ℚ)| ∨
        ((1 / 10000000 : ℚ) ≠ 0 ∧ |(1 / 10000000 : ℚ)| < 1 / 1000000)) :=
  ⟨by decide, formatNumber_exponential_iff "0.0000001" (1 / 10000000) (by decide)⟩

/-- C3: whenever shouldResetScreen (the spec's pendingReset) is set,
backspace behaves exactly like clear, resetting all four fields; in
particular backspace right after a successful calculate equals clear. -/
theorem backspace_pendingReset_eq_clear (s : CalcState) :
    (s.shouldResetScreen = true → backspace s = clear s) ∧
    (s.previousOperand ≠ "" → s.operation ≠ none →
      backspace (calculate s) = clear (calculate s)) := by
  constructor
  · intro h
    unfold backspace
    rw [if_pos h]
  · intro hp ho
    cases hop : s.operation with
    | none => exact absurd hop ho
    | some op =>
      have hc : calculate s =
          { currentOperand := numToString (compute s.previousOperand s.currentOperand op).value,
            previousOperand := "", operation := none, shouldResetScreen := true } := by
        unfold calculate
        rw [hop]
        simp [hp]
      rw [hc]
      unfold backspace
      rw [if_pos rfl]

/-- C3 witness: after entering 3 and pressing +, shouldResetScreen is set
and backspace clears; likewise backspace right after calculate on that
state equals clear. -/
theorem backspace_pendingReset_eq_clear_witness :
    backspace (setOperation "+" (appendNumber "3" initState)) =
      clear (setOperation "+" (appendNumber "3" initState)) ∧
    backspace (calculate (setOperation "+" (appendNumber "3" initState))) =
      clear (calculate (setOperation "+" (appendNumber "3" initState))) :=
  ⟨(backspace_pendingReset_eq_clear (setOperation "+" (appendNumber "3" initState))).1
      (by decide),
   (backspace_pendingReset_eq_clear (setOperation "+" (appendNumber "3" initState))).2
      (by decide) (by decide)⟩

/-- C4: from the clean initial state the sequence 3, +, 4, ×, 2, = leaves
the current operand "14": setOperation folds the pending + before
installing ×, so 3 + 4 × 2 evaluates left-to-right as (3+4)×2. -/
theorem chaining_left_to_right :
    (calculate (appendNumber "2" (setOperation "×" (appendNumber "4"
      (setOperation "+" (appendNumber "3" initState)))))).currentOperand = "14" := by
  decide

/-- C5: from the clean initial state the sequence 3, +, −, 4, = leaves the
current operand "-1": the second operator is pressed while
shouldResetScreen is still true, so the fold is skipped and only the
operator symbol is overwritten. -/
theorem operator_swap_overwrites :
    (calculate (appendNumber "4" (setOperation "−"
      (setOperation "+" (appendNumber "3" initState))))).currentOperand = "-1" := by
  decide

/-- C6: in every state reachable through the five entry points, an
operation is pending exactly when a previous operand is stored. -/
theorem operation_iff_previousOperand {s : CalcState} (h : Reachable s) :
    s.operation ≠ none ↔ s.previousOperand ≠ "" :=
  (inv_of_reachable h).2.2

/-- C6 witness: the reachable state after entering 3 and pressing + has
both an operation and a previous operand. -/
theorem operation_iff_previousOperand_witness :
    (setOperation "+" (appendNumber "3" initState)).operation ≠ none ↔
      (setOperation "+" (appendNumber "3" initState)).previousOperand ≠ "" :=
  operation_iff_previousOperand
    (Reachable.step_setOp "+" (Reachable.step_append "3" (by decide) Reachable.init))

/-- C7: in every reachable state the current operand holds at most one
decimal point, and a second consecutive appendNumber "." leaves the state
unchanged. -/
theorem at_most_one_dot {s : CalcState} (h : Reachable s) :
    dotCount s.currentOperand ≤ 1 ∧
      appendNumber "." (appendNumber "." s) = appendNumber "." s :=
  ⟨(inv_of_reachable h).2.1, appendNumber_dot_dot s⟩

/-- C7 witness: instantiated at the reachable state after entering 1. -/
theorem at_most_one_dot_witness :
    dotCount (appendNumber "1" initState).currentOperand ≤ 1 ∧
      appendNumber "." (appendNumber "." (appendNumber "1" initState)) =
        appendNumber "." (appendNumber "1" initState) :=
  at_most_one_dot (Reachable.step_append "1" (by decide) Reachable.init)

/-- C8: for every sequence of digit tokens containing at most one decimal
point, folding appendNumber from the initial state yields the
concatenation of the tokens subject to the leading-zero-replacement
rule. -/
theorem appendDigit_concatenation (ts : List String)
    (hv : ∀ t ∈ ts, validToken t) (hd : countDots ts ≤ 1) :
    (runAppends ts initState).currentOperand = specConcat ts := by
  have h0 : dotCount initState.currentOperand + countDots ts ≤ 1 := by
    have : dotCount initState.currentOperand = 0 := by decide
    omega
  exact runAppends_spec ts initState hv rfl h0

/-- C8 witness: the token sequence 0, 5 yields "5", not "05". -/
theorem appendDigit_concatenation_witness :
    (runAppends ["0", "5"] initState).currentOperand = specConcat ["0", "5"] ∧
      specConcat ["0", "5"] = "5" :=
  ⟨appendDigit_concatenation ["0", "5"] (by decide) (by decide), by decide⟩

/-- C9: for operand strings that both parse, any operator symbol outside
the four arithmetic symbols makes compute return the parsed current
operand unchanged with no alert; and if either operand fails to parse,
compute returns 0. -/
theorem compute_fallbacks (prev current op : String) :
    (op ∉ (["+", "−", "×", "÷"] : List String) →
      ∀ c : ℚ, parseFloat current = some c → (parseFloat prev).isSome = true →
        compute prev current op = { value := c, divByZero := false }) ∧
    ((parseFloat prev = none ∨ parseFloat current = none) →
      compute prev current op = { value := 0, divByZero := false }) := by
  constructor
  · intro hop c hc hp
    obtain ⟨p, hp2⟩ := Option.isSome_iff_exists.mp hp
    unfold compute
    rw [hp2, hc]
    simp only [List.mem_cons, List.not_mem_nil, or_false, not_or] at hop
    obtain ⟨h1, h2, h3, h4⟩ := hop
    dsimp only
    rw [if_neg h1, if_neg h2, if_neg h3, if_neg h4]
  · intro hcase
    rcases hp : parseFloat prev with _ | p <;> rcases hc : parseFloat current with _ | c
    · unfold compute
      rw [hp, hc]
    · unfold compute
      rw [hp, hc]
    · unfold compute
      rw [hp, hc]
    · exfalso
      rcases hcase with hn | hn
      · rw [hp] at hn
        exact Option.noConfusion hn
      · rw [hc] at hn
        exact Option.noConfusion hn

/-- C9 witness: the operator "%" is outside the four symbols and compute
returns the current operand 3; with an unparsable previous operand compute
returns 0. -/
theorem compute_fallbacks_witness :
    compute "2" "3" "%" = { value := 3, divByZero := false } ∧
    compute "x" "3" "+" = { value := 0, divByZero := false } :=
  ⟨(compute_fallbacks "2" "3" "%").1 (by decide) 3 (by decide) (by decide),
   (compute_fallbacks "x" "3" "+").2 (Or.inl (by decide))⟩

/-- C10: in every reachable state the current operand is a nonempty
string, so the empty-operand guard in setOperation can never fire. -/
theorem currentOperand_never_empty {s : CalcState} (h : Reachable s) :
    s.currentOperand ≠ "" :=
  (inv_of_reachable h).1

/-- C10 witness: instantiated at the reachable state reached by entering 5
and pressing backspace. -/
theorem currentOperand_never_empty_witness :
    (backspace (appendNumber "5" initState)).currentOperand ≠ "" :=
  currentOperand_never_empty
    (Reachable.step_backspace (Reachable.step_append "5" (by decide) Reachable.init))

end Calculator
